import Mathlib

set_option maxHeartbeats 1000000
set_option maxRecDepth 4000

/-!
Verification development for the core of the qpdf PDF library
(`libqpdf/QPDF.cc`): the in-memory object model, the cross-document
foreign-object copier, warning plumbing, header parsing and the
input-source lifecycle.

The C++ source is shallowly embedded: object stores become association
lists keyed by object identifiers, methods become pure functions on a
`QPDF` record (mirroring `QPDF::Members`), exceptions become an
`Except` error monad, and the recursive copier passes explicit fuel
(the real traversal terminates via its `visiting` set; fuel exhaustion
is a distinguished outcome that no theorem treats as success).
-/

/-- Association-list lookup (models `std::map::find` / `count`). -/
def alookup {α : Type} [DecidableEq α] {β : Type} : List (α × β) → α → Option β
  | [], _ => none
  | (k, v) :: xs, a => if k = a then some v else alookup xs a

/-- Association-list update: replace the first binding of `a`, or append a new
one at the end (models `std::map::operator[]` assignment). -/
def aset {α : Type} [DecidableEq α] {β : Type} : List (α × β) → α → β → List (α × β)
  | [], a, b => [(a, b)]
  | (k, v) :: xs, a, b => if k = a then (a, b) :: xs else (k, v) :: aset xs a b

/-- An object identifier: the `(id, generation)` pair (`QPDFObjGen`). -/
structure QPDFObjGen where
  obj : Int
  gen : Int
deriving DecidableEq

/-- Error codes carried by structured damage reports (`qpdf_error_code_e`). -/
inductive qpdf_error_code where
  | e_success
  | e_internal
  | e_system
  | e_unsupported
  | e_password
  | e_damaged_pdf
  | e_pages
  | e_object
deriving DecidableEq

/-- A structured warning / damage record (`QPDFExc`):
(error code, filename, object description, offset, message). -/
structure QPDFExc where
  error_code : qpdf_error_code
  filename : String
  object : String
  offset : Int
  message : String
deriving DecidableEq

/-- Failure outcomes of embedded operations. `logic` models
`std::logic_error`, `damaged` models a thrown `QPDFExc`; `fuel` marks
exhaustion of the explicit recursion fuel (never a success). -/
inductive CErr where
  | fuel
  | logic (msg : String)
  | damaged (e : QPDFExc)
deriving DecidableEq

/-- The message thrown by every I/O method of `InvalidInputSource`. -/
def invalidISMessage : String :=
  "QPDF operation attempted on a QPDF object with no input source. QPDF operations are invalid before processFile (or another process method) or after closeInputSource"

/-- The document's input source. `invalid` is the `InvalidInputSource`
sentinel from `QPDF.cc`; `basic` stands for any live input source (file,
buffer, offset adapter), whose byte-level behaviour is external to this
file and is abstracted. Both carry a name and a last-offset value. -/
inductive InputSource where
  | basic (nm : String) (lastOff : Int)
  | invalid (nm : String) (lastOff : Int)
deriving DecidableEq

def InputSource.getName : InputSource → String
  | .basic nm _ => nm
  | .invalid nm _ => nm

def InputSource.getLastOffset : InputSource → Int
  | .basic _ o => o
  | .invalid _ o => o

/-- `InputSource::tell`; throws on the invalidated sentinel. The value
returned by a live source is external and abstracted as its last offset. -/
def InputSource.tell : InputSource → Except CErr Int
  | .invalid _ _ => .error (.logic invalidISMessage)
  | .basic _ o => .ok o

/-- `InputSource::seek`; throws on the invalidated sentinel. -/
def InputSource.seek : InputSource → Int → Int → Except CErr Unit
  | .invalid _ _, _, _ => .error (.logic invalidISMessage)
  | .basic _ _, _, _ => .ok ()

/-- `InputSource::rewind`; throws on the invalidated sentinel. -/
def InputSource.rewind : InputSource → Except CErr Unit
  | .invalid _ _ => .error (.logic invalidISMessage)
  | .basic _ _ => .ok ()

/-- `InputSource::read`; throws on the invalidated sentinel. Bytes read
from a live source are external and abstracted as 0 here. -/
def InputSource.read : InputSource → Nat → Except CErr Nat
  | .invalid _ _, _ => .error (.logic invalidISMessage)
  | .basic _ _, _ => .ok 0

/-- `InputSource::unreadCh`; throws on the invalidated sentinel. -/
def InputSource.unreadCh : InputSource → Char → Except CErr Unit
  | .invalid _ _, _ => .error (.logic invalidISMessage)
  | .basic _ _, _ => .ok ()

/-- `InputSource::findAndSkipNextEOL`; throws on the invalidated sentinel. -/
def InputSource.findAndSkipNextEOL : InputSource → Except CErr Int
  | .invalid _ _ => .error (.logic invalidISMessage)
  | .basic _ _ => .ok 0

/-- The data source of a stream: nothing replaced yet (data lives in the
input at the stream's offset), an in-memory buffer, a user-supplied
provider, or the destination's copied-stream data provider
(`m->copied_streams`). Buffers and providers are abstract tokens;
sharing a buffer is sharing its token. -/
inductive StreamData where
  | fromInput
  | buffer (b : Nat)
  | provider (p : Nat)
  | copiedStreams
deriving DecidableEq

/-- `QPDF_Stream::getStreamDataBuffer`: the buffer, if the stream data was
replaced with one. -/
def StreamData.getBuffer : StreamData → Option Nat
  | .buffer b => some b
  | _ => none

/-- `QPDF_Stream::getStreamDataProvider` is non-null exactly when the data
was replaced with a provider (including the copied-streams provider). -/
def StreamData.hasProvider : StreamData → Bool
  | .provider _ => true
  | .copiedStreams => true
  | _ => false

mutual
/-- A PDF object value (the tagged sum behind `QPDFObject`). Streams
carry their dictionary, parsed offset, length and data source. -/
inductive QPDFObject : Type where
  | null
  | boolean (b : Bool)
  | integer (i : Int)
  | real (r : String)
  | name (n : String)
  | string (s : String)
  | array (items : List QPDFValue)
  | dictionary (entries : List (String × QPDFValue))
  | stream (dict : List (String × QPDFValue)) (offset : Int) (length : Nat) (data : StreamData)
  | reserved

/-- A handle (`QPDFObjectHandle`): either a direct value, or an indirect
reference naming an identifier in the document with the given unique id. -/
inductive QPDFValue : Type where
  | direct (obj : QPDFObject)
  | indirect (owner : Nat) (og : QPDFObjGen)
end

/-- Type tags (`qpdf_object_type_e`). -/
inductive qpdf_object_type where
  | ot_reserved
  | ot_null
  | ot_boolean
  | ot_integer
  | ot_real
  | ot_string
  | ot_name
  | ot_array
  | ot_dictionary
  | ot_stream
deriving DecidableEq

def QPDFObject.objType : QPDFObject → qpdf_object_type
  | .null => .ot_null
  | .boolean _ => .ot_boolean
  | .integer _ => .ot_integer
  | .real _ => .ot_real
  | .name _ => .ot_name
  | .string _ => .ot_string
  | .array _ => .ot_array
  | .dictionary _ => .ot_dictionary
  | .stream _ _ _ _ => .ot_stream
  | .reserved => .ot_reserved

/-- `isNull` on a resolved object. -/
def QPDFObject.isNull : QPDFObject → Bool
  | .null => true
  | _ => false

def QPDFValue.isIndirect : QPDFValue → Bool
  | .direct _ => false
  | .indirect _ _ => true

/-- `QPDFObjectHandle::getObjGen`; a direct handle reports `(0, 0)`. -/
def QPDFValue.getObjGen : QPDFValue → QPDFObjGen
  | .direct _ => ⟨0, 0⟩
  | .indirect _ og => og

/-- The unique id of the owning document of an indirect handle
(`getQPDF().getUniqueId()`); 0 for a direct handle. -/
def QPDFValue.ownerId : QPDFValue → Nat
  | .direct _ => 0
  | .indirect q _ => q

/-- Dictionary key read (`getKey`): the bound handle, or a null handle when
the key is absent. -/
def dictGetKey (es : List (String × QPDFValue)) (k : String) : QPDFValue :=
  match alookup es k with
  | some v => v
  | none => .direct .null

/-- Insert a key into a sorted key list (helper for `sortedKeys`). -/
def insortStr (k : String) : List String → List String
  | [] => [k]
  | x :: xs => if k ≤ x then k :: x :: xs else x :: insortStr k xs

/-- The keys of a dictionary as `getKeys` returns them: a `std::set`,
i.e. deduplicated and sorted. -/
def sortedKeys (es : List (String × QPDFValue)) : List String :=
  ((es.map Prod.fst).dedup).foldr insortStr []

/-- The state of one document (`QPDF::Members`): unique id, object store,
next allocatable object id, configuration flags, warnings (and what was
emitted to the warning stream), version, password, input source,
diagnostics context, and an abstract encryption-parameters token. -/
structure QPDF where
  unique_id : Nat
  store : List (QPDFObjGen × QPDFObject)
  next_obj : Int
  immediate_copy_from : Bool
  suppress_warnings : Bool
  max_warnings : Nat
  warnings : List QPDFExc
  emitted : List QPDFExc
  pdf_version : String
  provided_password : Option String
  file : InputSource
  no_input_name : String
  last_object_description : String
  encp : Nat

/-- Resolve a handle against a document: a direct handle is its value; an
indirect handle is the store slot, or null for a dangling identifier
(dangling references resolve to null). -/
def QPDF.resolve (q : QPDF) : QPDFValue → QPDFObject
  | .direct o => o
  | .indirect _ og =>
    match alookup q.store og with
    | some o => o
    | none => .null

/-- Modelled from the spec (§4.2): `isPagesObject` — a dictionary whose
`/Type` entry resolves to the name `/Pages`. (`QPDFObjectHandle` is not
part of the source under verification.) -/
def isPagesObjectIn (q : QPDF) (v : QPDFValue) : Bool :=
  match q.resolve v with
  | .dictionary es =>
    match q.resolve (dictGetKey es "/Type") with
    | .name n => n == "/Pages"
    | _ => false
  | _ => false

/-- Modelled from the spec (§4.2): `isPageObject` — a dictionary whose
`/Type` entry resolves to the name `/Page`. -/
def isPageObjectIn (q : QPDF) (v : QPDFValue) : Bool :=
  match q.resolve v with
  | .dictionary es =>
    match q.resolve (dictGetKey es "/Type") with
    | .name n => n == "/Page"
    | _ => false
  | _ => false

/-- `QPDFObjectTable::make_indirect`: allocate the next id at generation 0,
insert a resolved slot holding the value, and return the indirect handle. -/
def QPDF.makeIndirect (q : QPDF) (o : QPDFObject) : QPDF × QPDFValue :=
  ({ q with
      store := q.store ++ [(⟨q.next_obj, 0⟩, o)],
      next_obj := q.next_obj + 1 },
   .indirect q.unique_id ⟨q.next_obj, 0⟩)

/-- `QPDF::newStream`: a fresh indirect stream with an empty dictionary,
offset 0, length 0 and no data. -/
def QPDF.newStream (q : QPDF) : QPDF × QPDFValue :=
  q.makeIndirect (.stream [] 0 0 .fromInput)

/-- `QPDF::newIndirectNull`. -/
def QPDF.newIndirectNull (q : QPDF) : QPDF × QPDFValue :=
  q.makeIndirect .null

/-- `QPDF::newReserved`. -/
def QPDF.newReserved (q : QPDF) : QPDF × QPDFValue :=
  q.makeIndirect .reserved

/-- `QPDF::damagedPDF(object, offset, message)`: a damage record whose
filename comes from the current input source. -/
def QPDF.damagedPDF (q : QPDF) (object : String) (offset : Int) (message : String) : QPDFExc :=
  ⟨.e_damaged_pdf, q.file.getName, object, offset, message⟩

/-- The record thrown by `stopOnError("Too many warnings - file is too
badly damaged")`: object description empty, offset from `getLastOffset`. -/
def QPDF.tooManyWarnings (q : QPDF) : QPDFExc :=
  q.damagedPDF "" q.file.getLastOffset "Too many warnings - file is too badly damaged"

/-- `QPDF::warn(QPDFExc const&)`, transcribed from the source: first, if
`max_warnings` is positive and the number of already-recorded warnings has
reached it, stop with a fatal damage error (the new warning is not
recorded); otherwise record the warning and, unless warnings are
suppressed, emit it to the warning stream. -/
def QPDF.warn (q : QPDF) (e : QPDFExc) : Except CErr QPDF :=
  if 0 < q.max_warnings ∧ q.max_warnings ≤ q.warnings.length then
    .error (.damaged q.tooManyWarnings)
  else
    let q' := { q with warnings := q.warnings ++ [e] }
    if q'.suppress_warnings then .ok q'
    else .ok { q' with emitted := q'.emitted ++ [e] }

/-- `QPDFObjectTable::replace`: overwrite the slot's value without changing
its identity. -/
def QPDF.replace (q : QPDF) (og : QPDFObjGen) (o : QPDFObject) : QPDF :=
  { q with store := aset q.store og o }

/-- `QPDF::replaceReserved`: assert the current slot is `Reserved` or
`Null`, then `replace` the slot (keeping the identifier) with the
replacement's value. -/
def QPDF.replaceReserved (q : QPDF) (reserved replacement : QPDFValue) : Except CErr QPDF :=
  if ¬ ((q.resolve reserved).objType = .ot_reserved ∨ (q.resolve reserved).objType = .ot_null) then
    .error (.logic "replaceReserved called with non-reserved object")
  else
    .ok (q.replace reserved.getObjGen (q.resolve replacement))

/-- `QPDF::closeInputSource`: install the invalidating sentinel named
"closed input source"; the object store is untouched. -/
def QPDF.closeInputSource (q : QPDF) : QPDF :=
  { q with
      no_input_name := "closed input source",
      file := .invalid "closed input source" 0 }

/-- `QPDF::validatePDFVersion`, after the `%PDF-` prefix: digits, a dot,
then more digits; anything else is invalid. Returns the version string. -/
def validatePDFVersion (cs : List Char) : Option String :=
  match cs with
  | [] => none
  | c :: _ =>
    if c.isDigit then
      let ds := cs.takeWhile Char.isDigit
      let rest := cs.dropWhile Char.isDigit
      match rest with
      | '.' :: c2 :: _ =>
        if c2.isDigit then
          some (String.mk (ds ++ '.' :: (rest.drop 1).takeWhile Char.isDigit))
        else none
      | _ => none
    else none

/-- Does the input carry a valid `%PDF-<digits>.<digits>` header at
offset `o`? (The check `QPDF::findHeader` runs at each candidate match.) -/
def headerMatchAt (cs : List Char) (o : Nat) : Bool :=
  ("%PDF-".toList.isPrefixOf (cs.drop o)) && (validatePDFVersion (cs.drop (o + 5))).isSome

/-- Modelled from the spec (§4.5, §6): `InputSource::findFirst("%PDF-", 0,
1024, hf)` — the first offset within the first 1024 bytes at which a valid
header starts (the byte-level search itself is external to `QPDF.cc`). -/
def findPdfHeader (cs : List Char) : Option Nat :=
  (List.range (min 1024 cs.length)).find? (headerMatchAt cs)

/-- The version string read at a found header offset. -/
def versionAtHeader (cs : List Char) (o : Nat) : String :=
  (validatePDFVersion (cs.drop (o + 5))).getD ""

/-- The header-handling phase of `QPDF::parse` (lines 399-406): search
the first 1024 bytes for a header; on a match set the version from it
(offset re-basing is inside `findHeader`'s external callback); if no
header is found, record the `can't find PDF header` damage warning and
default the version to "1.2". -/
def parseHeaderPhase (q : QPDF) (input : List Char) : Except CErr QPDF :=
  match findPdfHeader input with
  | some o => .ok { q with pdf_version := versionAtHeader input o }
  | none =>
    match q.warn (q.damagedPDF "" 0 "can't find PDF header") with
    | .error e => .error e
    | .ok q' => .ok { q' with pdf_version := "1.2" }

/-- `QPDF::parse`: record the password; run the header phase; then run
the xref-table initialization and the encryption initialization and, if
the initialized xref is non-empty with no `/Pages` dictionary under
`/Root`, throw the "unable to find page tree" damage error.

Modelled from the spec (§4.4, §4.8) for the external steps:
`m->objects.xref_table().initialize()` and `initializeEncryption()` are
not part of `QPDF.cc` and the spec constrains them only to "may warn or
fail", so they are taken as parameters `xrefInit` and `encInit`;
`pageTreeMissing` stands for the in-src test
`xref_table().size() > 0 && !getRoot().getKey("/Pages").isDictionary()`,
which reads the xref state those external steps produce. -/
def QPDF.parse (xrefInit encInit : QPDF → Except CErr QPDF)
    (pageTreeMissing : QPDF → Bool)
    (q : QPDF) (password : Option String) (input : List Char) : Except CErr QPDF :=
  match parseHeaderPhase
      (match password with
        | some pw => { q with provided_password := some pw }
        | none => q) input with
  | .error e => .error e
  | .ok q1 =>
    match xrefInit q1 with
    | .error e => .error e
    | .ok q2 =>
      match encInit q2 with
      | .error e => .error e
      | .ok q3 =>
        if pageTreeMissing q3 then
          .error (.damaged (q3.damagedPDF "" 0 "unable to find page tree"))
        else .ok q3

/-- Per-source-document copier state (`QPDF::ObjCopier`): the
foreign-to-local map, the queue of handles to copy, and the cycle guard. -/
structure ObjCopier where
  object_map : List (QPDFObjGen × QPDFValue)
  to_copy : List QPDFValue
  visiting : List QPDFObjGen

/-- `QPDF::ForeignStreamData`: everything needed to pipe a foreign
stream's data later without the source `QPDF` object: its encryption
parameters and input source, the foreign identifier, raw offset, length,
and the local stream dictionary. -/
structure ForeignStreamData where
  encp : Nat
  file : InputSource
  foreign_og : QPDFObjGen
  offset : Int
  length : Nat
  local_dict : List (String × QPDFValue)

/-- The joint state a foreign copy operates on: the destination document
(`this`), the source document, the `ObjCopier` for this (destination,
source) pair, the destination's copied-stream data provider maps
(`CopiedStreamDataProvider::foreign_streams` / `foreign_stream_data`),
and a fresh-buffer counter for materialized stream data. -/
structure CopyState where
  dest : QPDF
  src : QPDF
  copier : ObjCopier
  foreign_streams : List (QPDFObjGen × QPDFValue)
  foreign_stream_data : List (QPDFObjGen × ForeignStreamData)
  next_buf : Nat

/-- Push an identifier onto the `visiting` cycle guard
(`QPDFObjGen::set::add`, after the membership test succeeded). -/
def pushVisiting (st : CopyState) (og : QPDFObjGen) : CopyState :=
  { st with copier := { st.copier with visiting := og :: st.copier.visiting } }

/-- Append a foreign handle to the `to_copy` queue. -/
def pushToCopy (st : CopyState) (v : QPDFValue) : CopyState :=
  { st with copier := { st.copier with to_copy := st.copier.to_copy ++ [v] } }

/-- Enter a (foreign identifier, local handle) pair into `object_map`. -/
def setMapEntry (st : CopyState) (og : QPDFObjGen) (lh : QPDFValue) : CopyState :=
  { st with copier := { st.copier with object_map := aset st.copier.object_map og lh } }

/-- Replace the destination document of the copy state. -/
def setDest (st : CopyState) (d : QPDF) : CopyState :=
  { st with dest := d }

/-- Remove an identifier from the `visiting` cycle guard
(`QPDFObjGen::set::erase`). -/
def eraseVisiting (st : CopyState) (og : QPDFObjGen) : CopyState :=
  { st with copier := { st.copier with
      visiting := st.copier.visiting.filter (fun x => decide (x ≠ og)) } }

/-- The indirect-handle step of `QPDF::reserveObjects` (lines 700-723):
cycle detection via `visiting`, the already-reserved check with its
top-level page re-entry special case, the allocation of the local slot —
a fresh stream for a foreign stream, else an indirect null — and the
queueing on `to_copy`. Returns the updated state and whether to continue
into the children (`false` models the early `return`s). -/
def reserveStep (st : CopyState) (foreign : QPDFValue) (top : Bool) :
    Except CErr (CopyState × Bool) :=
  if foreign.isIndirect then
    if foreign.getObjGen ∈ st.copier.visiting then .ok (st, false)
    else
      match alookup st.copier.object_map foreign.getObjGen with
      | some lh =>
        if top ∧ isPageObjectIn st.src foreign ∧ (st.dest.resolve lh).isNull then
          .ok (pushToCopy (pushVisiting st foreign.getObjGen) foreign, true)
        else
          .ok (eraseVisiting (pushVisiting st foreign.getObjGen) foreign.getObjGen, false)
      | none =>
        if (st.src.resolve foreign).objType = .ot_stream then
          if ¬ top ∧ isPageObjectIn st.src foreign then
            .ok (eraseVisiting
              (setMapEntry (setDest (pushVisiting st foreign.getObjGen) (st.dest.newStream).1)
                foreign.getObjGen (st.dest.newStream).2) foreign.getObjGen, false)
          else
            .ok (pushToCopy
              (setMapEntry (setDest (pushVisiting st foreign.getObjGen) (st.dest.newStream).1)
                foreign.getObjGen (st.dest.newStream).2) foreign, true)
        else
          if ¬ top ∧ isPageObjectIn st.src foreign then
            .ok (eraseVisiting
              (setMapEntry (setDest (pushVisiting st foreign.getObjGen) (st.dest.newIndirectNull).1)
                foreign.getObjGen (st.dest.newIndirectNull).2) foreign.getObjGen, false)
          else
            .ok (pushToCopy
              (setMapEntry (setDest (pushVisiting st foreign.getObjGen) (st.dest.newIndirectNull).1)
                foreign.getObjGen (st.dest.newIndirectNull).2) foreign, true)
  else .ok (st, true)

mutual
/-- Pass 1 of the foreign copy, `QPDF::reserveObjects`: refuse foreign
reserved objects, skip `/Pages` dictionaries, run the indirect-handle
step, then recurse into array items, dictionary values (in sorted key
order, as `getKeys` iterates a `std::set`) and the stream dictionary,
finally erasing the handle from `visiting`. Fuel decreases at every
recursive call; `.error .fuel` means the fuel ran out. -/
def reserveObjects : Nat → CopyState → QPDFValue → Bool → Except CErr CopyState
  | 0, _, _, _ => .error .fuel
  | n + 1, st, foreign, top =>
    if (st.src.resolve foreign).objType = .ot_reserved then
      .error (.logic "QPDF: attempting to copy a foreign reserved object")
    else if isPagesObjectIn st.src foreign then
      .ok st
    else
      match reserveStep st foreign top with
      | .error e => .error e
      | .ok (st3, false) => .ok st3
      | .ok (st3, true) =>
        match
          (match st3.src.resolve foreign with
            | .array items => reserveList n st3 items
            | .dictionary es => reserveKeys n st3 (sortedKeys es) es
            | .stream d _ _ _ => reserveObjects n st3 (.direct (.dictionary d)) false
            | _ => .ok st3)
        with
        | .error e => .error e
        | .ok st4 => .ok (eraseVisiting st4 foreign.getObjGen)

/-- Pass-1 recursion over the items of an array. -/
def reserveList : Nat → CopyState → List QPDFValue → Except CErr CopyState
  | 0, _, _ => .error .fuel
  | _ + 1, st, [] => .ok st
  | n + 1, st, v :: vs =>
    match reserveObjects n st v false with
    | .error e => .error e
    | .ok st' => reserveList n st' vs

/-- Pass-1 recursion over the (sorted) keys of a dictionary. -/
def reserveKeys : Nat → CopyState → List String → List (String × QPDFValue) → Except CErr CopyState
  | 0, _, _, _ => .error .fuel
  | _ + 1, st, [], _ => .ok st
  | n + 1, st, k :: ks, es =>
    match reserveObjects n st (dictGetKey es k) false with
    | .error e => .error e
    | .ok st' => reserveKeys n st' ks es
end

/-- `QPDFObjectHandle::replaceStreamData` on a destination stream slot:
set the stream's data source, keeping dictionary, offset and length. -/
def QPDF.setStreamData (q : QPDF) (og : QPDFObjGen) (sd : StreamData) : Except CErr QPDF :=
  match alookup q.store og with
  | some (.stream d o l _) => .ok (q.replace og (.stream d o l sd))
  | _ => .error (.logic "operation for stream attempted on object of wrong type")

/-- `QPDF::copyStreamData`, transcribed from the source: retrieve the
source stream (the owning document must exist, i.e. the handle is
indirect); if the source document has `immediate_copy_from` and the
stream has no buffer, materialize its raw data into a fresh buffer on the
source stream first. Then: share an existing buffer into the local
stream; else, for a provider, register the foreign handle in the
destination's copied-stream provider; else register a `ForeignStreamData`
record. In the latter two cases the local stream's data source becomes
the copied-streams provider. -/
def copyStreamData (st : CopyState) (result foreign : QPDFValue) : Except CErr CopyState :=
  if ¬ foreign.isIndirect then
    .error (.logic "unable to retrieve owning qpdf from foreign stream")
  else
    match st.src.resolve foreign with
    | .stream sdict soff slen sdata =>
      let stp :
          CopyState × StreamData :=
        if st.src.immediate_copy_from ∧ sdata.getBuffer = none then
          ({ st with
              src := { st.src with
                store := aset st.src.store foreign.getObjGen
                  (.stream sdict soff slen (.buffer st.next_buf)) },
              next_buf := st.next_buf + 1 },
           .buffer st.next_buf)
        else (st, sdata)
      match stp.2.getBuffer with
      | some b =>
        match stp.1.dest.setStreamData result.getObjGen (.buffer b) with
        | .error e => .error e
        | .ok d => .ok { stp.1 with dest := d }
      | none =>
        if stp.2.hasProvider then
          match stp.1.dest.setStreamData result.getObjGen .copiedStreams with
          | .error e => .error e
          | .ok d =>
            .ok { stp.1 with
                dest := d,
                foreign_streams := aset stp.1.foreign_streams result.getObjGen foreign }
        else
          match stp.1.dest.setStreamData result.getObjGen .copiedStreams with
          | .error e => .error e
          | .ok d =>
            .ok { stp.1 with
                dest := d,
                foreign_stream_data := aset stp.1.foreign_stream_data result.getObjGen
                  ⟨stp.1.src.encp, stp.1.src.file, foreign.getObjGen, soff, slen,
                    (match stp.1.dest.resolve result with
                      | .stream d' _ _ _ => d'
                      | _ => [])⟩ }
    | _ => .error (.logic "unable to retrieve underlying stream object from foreign stream")

/-- `QPDFObjectHandle::replaceKey` on the dictionary of a destination
stream slot (the Pass-2 stream branch mutates the local stream's
dictionary in place). -/
def destDictReplaceKey (st : CopyState) (og : QPDFObjGen) (k : String) (v : QPDFValue) :
    Except CErr CopyState :=
  match alookup st.dest.store og with
  | some (.stream d o l sd) =>
    .ok { st with dest := st.dest.replace og (.stream (aset d k v) o l sd) }
  | _ => .error (.logic "operation for dictionary attempted on object of wrong type")

mutual
/-- Pass 2 of the foreign copy, `QPDF::replaceForeignIndirectObjects`:
compute the local value (`replaceCore`) and then apply the top-level
assertion that a non-stream replacement is never indirect. -/
def replaceForeignIndirectObjects :
    Nat → CopyState → QPDFValue → Bool → Except CErr (CopyState × QPDFValue)
  | 0, _, _, _ => .error .fuel
  | n + 1, st, foreign, top =>
    match replaceCore n st foreign top with
    | .error e => .error e
    | .ok (st', result) =>
      if top ∧ ¬ (st'.dest.resolve result).objType = .ot_stream ∧ result.isIndirect then
        .error (.logic "replacement for foreign object is indirect")
      else .ok (st', result)

/-- The body of `QPDF::replaceForeignIndirectObjects`: a non-top indirect
reference is rewritten through `object_map` (absent identifiers become a
local null); arrays and dictionaries are rebuilt with rewritten children;
a stream retrieves its reserved local stream, asserts it is one, copies
the rewritten dictionary entries into it and installs the stream data;
scalars are used directly, made direct. -/
def replaceCore : Nat → CopyState → QPDFValue → Bool → Except CErr (CopyState × QPDFValue)
  | 0, _, _, _ => .error .fuel
  | n + 1, st, foreign, top =>
    if ¬ top ∧ foreign.isIndirect then
      match alookup st.copier.object_map foreign.getObjGen with
      | none => .ok (st, .direct .null)
      | some m => .ok (st, m)
    else
      match st.src.resolve foreign with
      | .array items =>
        match replaceArrayItems n st items with
        | .error e => .error e
        | .ok (st', items') => .ok (st', .direct (.array items'))
      | .dictionary es =>
        match replaceDictKeys n st (sortedKeys es) es with
        | .error e => .error e
        | .ok (st', es') => .ok (st', .direct (.dictionary es'))
      | .stream sdict _ _ _ =>
        match alookup st.copier.object_map foreign.getObjGen with
        | none => .error (.logic "attempted to dereference an uninitialized QPDFObjectHandle")
        | some result =>
          match st.dest.resolve result with
          | .stream _ _ _ _ =>
            match replaceStreamKeys n st (sortedKeys sdict) sdict result.getObjGen with
            | .error e => .error e
            | .ok st' =>
              match copyStreamData st' result foreign with
              | .error e => .error e
              | .ok st'' => .ok (st'', result)
          | _ => .error (.logic "operation for stream attempted on object of wrong type")
      | fo => .ok (st, .direct fo)

/-- Pass-2 recursion over array items. -/
def replaceArrayItems :
    Nat → CopyState → List QPDFValue → Except CErr (CopyState × List QPDFValue)
  | 0, _, _ => .error .fuel
  | _ + 1, st, [] => .ok (st, [])
  | n + 1, st, v :: vs =>
    match replaceForeignIndirectObjects n st v false with
    | .error e => .error e
    | .ok (st', v') =>
      match replaceArrayItems n st' vs with
      | .error e => .error e
      | .ok (st'', vs') => .ok (st'', v' :: vs')

/-- Pass-2 recursion over the (sorted) keys of a dictionary, building the
rewritten entry list. -/
def replaceDictKeys :
    Nat → CopyState → List String → List (String × QPDFValue) →
    Except CErr (CopyState × List (String × QPDFValue))
  | 0, _, _, _ => .error .fuel
  | _ + 1, st, [], _ => .ok (st, [])
  | n + 1, st, k :: ks, es =>
    match replaceForeignIndirectObjects n st (dictGetKey es k) false with
    | .error e => .error e
    | .ok (st', v') =>
      match replaceDictKeys n st' ks es with
      | .error e => .error e
      | .ok (st'', es') => .ok (st'', (k, v') :: es')

/-- Pass-2 recursion over the keys of a foreign stream's dictionary,
writing each rewritten entry into the local stream's dictionary. -/
def replaceStreamKeys :
    Nat → CopyState → List String → List (String × QPDFValue) → QPDFObjGen →
    Except CErr CopyState
  | 0, _, _, _, _ => .error .fuel
  | _ + 1, st, [], _, _ => .ok st
  | n + 1, st, k :: ks, es, og =>
    match replaceForeignIndirectObjects n st (dictGetKey es k) false with
    | .error e => .error e
    | .ok (st', v') =>
      match destDictReplaceKey st' og k v' with
      | .error e => .error e
      | .ok st'' => replaceStreamKeys n st'' ks es og
end

/-- The Pass-2 driver loop of `QPDF::copyForeignObject` (lines 669-675):
for each queued handle compute the local copy and, unless the handle is a
stream (whose reservation already is the stream), replace the
reservation with the copy. -/
def copyLoop : Nat → CopyState → List QPDFValue → Except CErr CopyState
  | _, st, [] => .ok st
  | fuel, st, tc :: rest =>
    match replaceForeignIndirectObjects fuel st tc true with
    | .error e => .error e
    | .ok (st', copy) =>
      if (st'.src.resolve tc).objType = .ot_stream then copyLoop fuel st' rest
      else
        match alookup st'.copier.object_map tc.getObjGen with
        | none => .error (.logic "attempted to dereference an uninitialized QPDFObjectHandle")
        | some lh =>
          match st'.dest.replaceReserved lh copy with
          | .error e => .error e
          | .ok d => copyLoop fuel { st' with dest := d } rest

/-- `QPDF::copyForeignObject`: check the preconditions (indirect handle,
foreign owner, empty `visiting`), reserve identities for the reachable
sub-graph (Pass 1), check `visiting` is empty again, copy and install the
queued values (Pass 2), clear the queue and return the mapped local
handle — or, if the original identifier was never mapped (a `/Pages`
object skipped in Pass 1), warn and return a local null. -/
def copyForeignObject (fuel : Nat) (st : CopyState) (foreign : QPDFValue) :
    Except CErr (CopyState × QPDFValue) :=
  if ¬ foreign.isIndirect then
    .error (.logic "QPDF::copyForeign called with direct object handle")
  else if foreign.ownerId = st.dest.unique_id then
    .error (.logic "QPDF::copyForeign called with object from this QPDF")
  else if ¬ st.copier.visiting = [] then
    .error (.logic "obj_copier.visiting is not empty at the beginning of copyForeignObject")
  else
    match reserveObjects fuel st foreign true with
    | .error e => .error e
    | .ok str =>
      if ¬ str.copier.visiting = [] then
        .error (.logic "obj_copier.visiting is not empty after reserving objects")
      else
        match copyLoop fuel str str.copier.to_copy with
        | .error e => .error e
        | .ok stl =>
          let stc := { stl with copier := { stl.copier with to_copy := [] } }
          match alookup stc.copier.object_map foreign.getObjGen with
          | none =>
            match stc.dest.warn (stc.dest.damagedPDF stc.dest.last_object_description
                stc.dest.file.getLastOffset
                "unexpected reference to /Pages object while copying foreign object; replacing with null") with
            | .error e => .error e
            | .ok d => .ok ({ stc with dest := d }, .direct .null)
          | some v => .ok (stc, v)

/-! ### Reference definitions written from the spec's words (refinement targets) -/

/-- The warning discipline exactly as claim C6 words it: *push the warning
to the list first*; then, if `max_warnings` is positive and the number of
recorded warnings has reached it, raise the fatal "too many warnings"
damage error; otherwise emit unless suppressed. Written from the claim,
to be compared against `QPDF.warn` (which is transcribed from the code). -/
def warnClaimOrder (q : QPDF) (e : QPDFExc) : Except CErr QPDF :=
  let q' := { q with warnings := q.warnings ++ [e] }
  if 0 < q'.max_warnings ∧ q'.max_warnings ≤ q'.warnings.length then
    .error (.damaged q'.tooManyWarnings)
  else if q'.suppress_warnings then .ok q'
  else .ok { q' with emitted := q'.emitted ++ [e] }

/-- The warning discipline as amended: *first* check whether `max_warnings`
is positive and the number of *already recorded* warnings has reached it —
if so raise the fatal damage error without recording the new warning;
otherwise record it and, unless warnings are suppressed, emit it. -/
def warnAmendedOrder (q : QPDF) (e : QPDFExc) : Except CErr QPDF :=
  if 0 < q.max_warnings ∧ q.max_warnings ≤ q.warnings.length then
    .error (.damaged q.tooManyWarnings)
  else
    let q' := { q with warnings := q.warnings ++ [e] }
    if q'.suppress_warnings then .ok q'
    else .ok { q' with emitted := q'.emitted ++ [e] }

/-- The stream-data installation policy exactly as claim C4 (and spec
§4.6) orders it: (1) if the source stream already has an in-memory
buffer, share that buffer; (2) else if the source document has
`immediate_copy_from`, materialize the raw data into a buffer on the
source stream and share it; (3) else if the source has a data provider,
register the source's indirect handle in the copied-stream provider;
(4) else register a `ForeignStreamData` record capturing the source's
encryption parameters, input source, foreign identifier, offset, length
and the local dictionary. Written from the claim, to be compared against
`copyStreamData` (which is transcribed from the code). -/
def copyStreamDataSpec (st : CopyState) (result foreign : QPDFValue) : Except CErr CopyState :=
  if ¬ foreign.isIndirect then
    .error (.logic "unable to retrieve owning qpdf from foreign stream")
  else
    match st.src.resolve foreign with
    | .stream sdict soff slen sdata =>
      match sdata.getBuffer with
      | some b =>
        match st.dest.setStreamData result.getObjGen (.buffer b) with
        | .error e => .error e
        | .ok d => .ok { st with dest := d }
      | none =>
        if st.src.immediate_copy_from then
          let st' := { st with
              src := { st.src with
                store := aset st.src.store foreign.getObjGen
                  (.stream sdict soff slen (.buffer st.next_buf)) },
              next_buf := st.next_buf + 1 }
          match st'.dest.setStreamData result.getObjGen (.buffer st.next_buf) with
          | .error e => .error e
          | .ok d => .ok { st' with dest := d }
        else if sdata.hasProvider then
          match st.dest.setStreamData result.getObjGen .copiedStreams with
          | .error e => .error e
          | .ok d =>
            .ok { st with
                dest := d,
                foreign_streams := aset st.foreign_streams result.getObjGen foreign }
        else
          match st.dest.setStreamData result.getObjGen .copiedStreams with
          | .error e => .error e
          | .ok d =>
            .ok { st with
                dest := d,
                foreign_stream_data := aset st.foreign_stream_data result.getObjGen
                  ⟨st.src.encp, st.src.file, foreign.getObjGen, soff, slen,
                    (match st.dest.resolve result with
                      | .stream d' _ _ _ => d'
                      | _ => [])⟩ }
    | _ => .error (.logic "unable to retrieve underlying stream object from foreign stream")

/-! ### Concrete demonstration states (used by witnesses and counterexamples) -/

/-- A small source document: unique id 7, one object `1 0`, an empty
dictionary. -/
def srcDemo : QPDF :=
  { unique_id := 7, store := [(⟨1, 0⟩, .dictionary [])], next_obj := 2,
    immediate_copy_from := false, suppress_warnings := false, max_warnings := 0,
    warnings := [], emitted := [], pdf_version := "1.3", provided_password := none,
    file := .basic "src.pdf" 0, no_input_name := "no description provided",
    last_object_description := "", encp := 1 }

/-- A small empty destination document with unique id 1. -/
def destDemo : QPDF :=
  { unique_id := 1, store := [], next_obj := 1,
    immediate_copy_from := false, suppress_warnings := false, max_warnings := 0,
    warnings := [], emitted := [], pdf_version := "1.3", provided_password := none,
    file := .basic "dest.pdf" 0, no_input_name := "no description provided",
    last_object_description := "", encp := 0 }

/-- A fresh copy state between `destDemo` and `srcDemo`. -/
def stDemo : CopyState :=
  { dest := destDemo, src := srcDemo, copier := ⟨[], [], []⟩,
    foreign_streams := [], foreign_stream_data := [], next_buf := 0 }

/-- The foreign handle `1 0 R` owned by `srcDemo`. -/
def vDemo : QPDFValue := .indirect 7 ⟨1, 0⟩

/-- A sample warning record. -/
def warnDemoExc : QPDFExc := ⟨.e_damaged_pdf, "dest.pdf", "", 0, "example warning"⟩

/-- A source document containing a `/Pages` dictionary at `1 0`. -/
def srcPagesDemo : QPDF :=
  { srcDemo with store := [(⟨1, 0⟩, .dictionary [("/Type", .direct (.name "/Pages"))])] }

/-- A copy state whose source holds a `/Pages` dictionary. -/
def stPagesDemo : CopyState :=
  { stDemo with src := srcPagesDemo }

/-- A document holding a `Reserved` slot at `1 0` (for `replaceReserved`). -/
def reservedDemo : QPDF :=
  { destDemo with store := [(⟨1, 0⟩, .reserved)], next_obj := 2 }

/-! ### State-evolution invariants used by the copier proofs -/

/-- What any successful Pass-1 step guarantees: the source document is
untouched, the destination keeps its identity, entries of `object_map`
are never overwritten, and existing destination slots keep their value
(Pass 1 only appends fresh slots). -/
def ReserveInv (st st' : CopyState) : Prop :=
  st'.src = st.src
  ∧ st'.dest.unique_id = st.dest.unique_id
  ∧ (∀ og v, alookup st.copier.object_map og = some v →
      alookup st'.copier.object_map og = some v)
  ∧ (∀ og o, alookup st.dest.store og = some o → alookup st'.dest.store og = some o)

/-- What Pass 2 may do to the source document: nothing, except replacing
the data of stream slots (materialization under `immediate_copy_from`),
which keeps those slots streams. -/
def srcStreamPreserved (st st' : CopyState) : Prop :=
  ∀ og, alookup st'.src.store og = alookup st.src.store og
    ∨ ((∃ d o l sd, alookup st.src.store og = some (.stream d o l sd))
      ∧ (∃ d o l sd, alookup st'.src.store og = some (.stream d o l sd)))

/-- What any successful Pass-2 step guarantees: the copier state
(`object_map`, `to_copy`, `visiting`) is untouched, the destination keeps
its identity, and the source changes only by stream-data materialization. -/
def PassInv (st st' : CopyState) : Prop :=
  st'.copier = st.copier
  ∧ st'.dest.unique_id = st.dest.unique_id
  ∧ srcStreamPreserved st st'

/-! ### Lemmas about the association-list helpers -/

theorem alookup_aset {α : Type} [DecidableEq α] {β : Type}
    (m : List (α × β)) (a a' : α) (b : β) :
    alookup (aset m a b) a' = if a = a' then some b else alookup m a' := by
  induction m with
  | nil =>
    by_cases h : a = a' <;> simp [alookup, aset, h]
  | cons kv xs ih =>
    obtain ⟨k, v⟩ := kv
    by_cases hk : k = a
    · subst hk
      by_cases h' : k = a' <;> simp [aset, alookup, h']
    · by_cases h' : k = a'
      · subst h'
        have ha : ¬ (a = k) := fun h => hk h.symm
        simp [aset, alookup, hk, ha]
      · simp [aset, alookup, hk, h', ih]

theorem alookup_aset_of_none {α : Type} [DecidableEq α] {β : Type}
    {m : List (α × β)} {a : α} (b : β) {a' : α} {v : β}
    (hnone : alookup m a = none) (h : alookup m a' = some v) :
    alookup (aset m a b) a' = some v := by
  rw [alookup_aset]
  by_cases haa : a = a'
  · subst haa; rw [h] at hnone; cases hnone
  · simp [haa, h]

theorem alookup_append_left {α : Type} [DecidableEq α] {β : Type}
    {m₁ : List (α × β)} (m₂ : List (α × β)) {a : α} {v : β}
    (h : alookup m₁ a = some v) :
    alookup (m₁ ++ m₂) a = some v := by
  induction m₁ with
  | nil => cases h
  | cons kv xs ih =>
    obtain ⟨k, w⟩ := kv
    by_cases hk : k = a
    · subst hk; simp [alookup] at h ⊢; exact h
    · simp [alookup, hk] at h ⊢; exact ih h

theorem alookup_append_right {α : Type} [DecidableEq α] {β : Type}
    {m₁ : List (α × β)} (m₂ : List (α × β)) {a : α}
    (h : alookup m₁ a = none) :
    alookup (m₁ ++ m₂) a = alookup m₂ a := by
  induction m₁ with
  | nil => simp
  | cons kv xs ih =>
    obtain ⟨k, w⟩ := kv
    by_cases hk : k = a
    · subst hk; simp [alookup] at h
    · simp [alookup, hk] at h ⊢; exact ih h

/-! ### Claim theorems -/

/-- **C6** (corrected). `QPDF::warn` first checks whether `max_warnings`
is positive and the number of *already recorded* warnings has reached it;
if so it raises the fatal "too many warnings" damage error *without
recording the new warning*; otherwise it pushes the warning to the list
and, if `suppress_warnings` is false, emits it to the warning stream. -/
theorem warn_matches_amended_order (q : QPDF) (e : QPDFExc) :
    q.warn e = warnAmendedOrder q e := rfl

/-- **C6 counterexample.** The claim's ordering (push first, then check
"reached") disagrees with the code: with `max_warnings = 1` and no
recorded warnings, the code records and emits the warning, while the
claim's ordering raises the fatal error. -/
theorem warn_claim_order_counterexample :
    QPDF.warn { destDemo with max_warnings := 1 } warnDemoExc ≠
      warnClaimOrder { destDemo with max_warnings := 1 } warnDemoExc := by
  intro h
  exact Except.noConfusion h

/-- **C7.** `replaceReserved` raises a logic error when the current slot
of the handle is neither `Reserved` nor `Null`; when it is `Reserved` or
`Null` it replaces the slot's value while keeping the identifier, so any
handle naming that identifier resolves to the new value, and every other
slot is untouched. -/
theorem replaceReserved_behaviour (q : QPDF) (r v : QPDFValue) :
    (¬ ((q.resolve r).objType = .ot_reserved ∨ (q.resolve r).objType = .ot_null) →
      q.replaceReserved r v = .error (.logic "replaceReserved called with non-reserved object"))
    ∧ (((q.resolve r).objType = .ot_reserved ∨ (q.resolve r).objType = .ot_null) →
      ∃ q', q.replaceReserved r v = .ok q'
        ∧ (∀ owner, q'.resolve (.indirect owner r.getObjGen) = q.resolve v)
        ∧ (∀ og', og' ≠ r.getObjGen → alookup q'.store og' = alookup q.store og')) := by
  constructor
  · intro h
    simp [QPDF.replaceReserved, h]
  · intro h
    refine ⟨q.replace r.getObjGen (q.resolve v), ?_, ?_, ?_⟩
    · simp [QPDF.replaceReserved, h]
    · intro owner
      simp [QPDF.resolve, QPDF.replace, alookup_aset]
    · intro og' hne
      have hne' : ¬ (r.getObjGen = og') := fun h => hne h.symm
      simp [QPDF.replace, alookup_aset, hne']

/-- **C7 witness.** Replacing the reserved slot `1 0` of `reservedDemo`
with the integer 42 succeeds and every handle to `1 0` now resolves to
the integer. -/
theorem replaceReserved_behaviour_witness :
    ((reservedDemo.resolve (.indirect 1 ⟨1, 0⟩)).objType = .ot_reserved ∨
      (reservedDemo.resolve (.indirect 1 ⟨1, 0⟩)).objType = .ot_null)
    ∧ ∃ q', reservedDemo.replaceReserved (.indirect 1 ⟨1, 0⟩) (.direct (.integer 42)) = .ok q'
        ∧ (∀ owner, q'.resolve (.indirect owner (QPDFValue.getObjGen (.indirect 1 ⟨1, 0⟩))) =
            reservedDemo.resolve (.direct (.integer 42)))
        ∧ (∀ og', og' ≠ QPDFValue.getObjGen (.indirect 1 ⟨1, 0⟩) →
            alookup q'.store og' = alookup reservedDemo.store og') :=
  ⟨Or.inl rfl,
    (replaceReserved_behaviour reservedDemo (.indirect 1 ⟨1, 0⟩) (.direct (.integer 42))).2
      (Or.inl rfl)⟩

/-- **C9.** After `closeInputSource`, every I/O method of the document's
input source (`tell`, `seek`, `rewind`, `read`, `unreadCh`,
`findAndSkipNextEOL`) raises the invalid-input-source logic error, while
`getName` returns without throwing; the object store — hence every
already-cached object — is unchanged, so cached objects resolve exactly
as before. -/
theorem closeInputSource_invalidates (q : QPDF) :
    (q.closeInputSource).file.tell = .error (.logic invalidISMessage)
    ∧ (∀ off whence, (q.closeInputSource).file.seek off whence = .error (.logic invalidISMessage))
    ∧ (q.closeInputSource).file.rewind = .error (.logic invalidISMessage)
    ∧ (∀ len, (q.closeInputSource).file.read len = .error (.logic invalidISMessage))
    ∧ (∀ c, (q.closeInputSource).file.unreadCh c = .error (.logic invalidISMessage))
    ∧ (q.closeInputSource).file.findAndSkipNextEOL = .error (.logic invalidISMessage)
    ∧ (q.closeInputSource).file.getName = "closed input source"
    ∧ (q.closeInputSource).store = q.store
    ∧ (∀ v, (q.closeInputSource).resolve v = q.resolve v) := by
  refine ⟨rfl, fun _ _ => rfl, rfl, fun _ => rfl, fun _ => rfl, rfl, rfl, rfl, ?_⟩
  intro v
  cases v <;> rfl

/-- **C5.** `copyForeignObject` raises a logic error whenever its
preconditions are violated: the handle is direct; or the handle's owning
document is the destination itself; or the per-pair `visiting` set is
non-empty at the start of the call. -/
theorem copyForeignObject_preconditions (fuel : Nat) (st : CopyState) (foreign : QPDFValue) :
    (foreign.isIndirect = false →
      copyForeignObject fuel st foreign =
        .error (.logic "QPDF::copyForeign called with direct object handle"))
    ∧ (foreign.isIndirect = true → foreign.ownerId = st.dest.unique_id →
      copyForeignObject fuel st foreign =
        .error (.logic "QPDF::copyForeign called with object from this QPDF"))
    ∧ (foreign.isIndirect = true → ¬ foreign.ownerId = st.dest.unique_id →
      ¬ st.copier.visiting = [] →
      copyForeignObject fuel st foreign =
        .error (.logic "obj_copier.visiting is not empty at the beginning of copyForeignObject")) := by
  refine ⟨?_, ?_, ?_⟩
  · intro h1
    simp [copyForeignObject, h1]
  · intro h1 h2
    simp [copyForeignObject, h1, h2]
  · intro h1 h2 h3
    simp [copyForeignObject, h1, h2, h3]

/-- **C5 witness.** Calling `copyForeignObject` on a direct handle raises
the direct-object logic error. -/
theorem copyForeignObject_preconditions_witness :
    (QPDFValue.direct .null).isIndirect = false
    ∧ copyForeignObject 3 stDemo (.direct .null) =
        .error (.logic "QPDF::copyForeign called with direct object handle") :=
  ⟨rfl, (copyForeignObject_preconditions 3 stDemo (.direct .null)).1 rfl⟩

/-- The in-src header phase of `parse` on an input with no valid header
(starting from a document with no prior warnings and no warning cap):
exactly one warning is recorded — the `damaged_pdf` record with message
"can't find PDF header" — and the version is set to "1.2". This is the
portion of claim C8 decided by `QPDF.cc`; what the subsequent external
xref/encryption initialization adds is not determined by the available
code, so this lemma does not settle C8. -/
theorem parseHeaderPhase_missing
    (q : QPDF) (input : List Char)
    (hnf : findPdfHeader input = none)
    (hw : q.warnings = [])
    (hm : q.max_warnings = 0) :
    ∃ q1, parseHeaderPhase q input = .ok q1
      ∧ q1.warnings = [q.damagedPDF "" 0 "can't find PDF header"]
      ∧ (q.damagedPDF "" 0 "can't find PDF header").error_code = .e_damaged_pdf
      ∧ q1.pdf_version = "1.2" := by
  have hcond : ¬ (0 < q.max_warnings ∧ q.max_warnings ≤ q.warnings.length) := by
    rw [hm]; simp
  cases hs : q.suppress_warnings
  · simp only [parseHeaderPhase, hnf, QPDF.warn, if_neg hcond, hs, Bool.false_eq_true, if_false]
    exact ⟨_, rfl, by simp [hw], rfl, rfl⟩
  · simp only [parseHeaderPhase, hnf, QPDF.warn, if_neg hcond, hs, if_true]
    exact ⟨_, rfl, by simp [hw], rfl, rfl⟩

/-- **C10.** Pass 2 maintains the top-level invariant: if the computed
replacement for a top-level `to_copy` entry is indirect and not a stream,
`replaceForeignIndirectObjects` raises the "replacement for foreign
object is indirect" logic error; consequently every successful top-level
rewrite returns a value that is direct or a stream — so `copyForeignObject`
never installs an indirect non-stream value into a reservation. -/
theorem replaceForeign_top_level_invariant :
    (∀ (n : Nat) (st : CopyState) (v : QPDFValue) (st' : CopyState) (r : QPDFValue),
      replaceCore n st v true = .ok (st', r) →
      r.isIndirect = true →
      ¬ (st'.dest.resolve r).objType = .ot_stream →
      replaceForeignIndirectObjects (n + 1) st v true =
        .error (.logic "replacement for foreign object is indirect"))
    ∧ (∀ (n : Nat) (st : CopyState) (v : QPDFValue) (st' : CopyState) (r : QPDFValue),
      replaceForeignIndirectObjects n st v true = .ok (st', r) →
      r.isIndirect = false ∨ (st'.dest.resolve r).objType = .ot_stream) := by
  constructor
  · intro n st v st' r hcore hind hstr
    simp only [replaceForeignIndirectObjects, hcore]
    simp [hind, hstr]
  · intro n st v st' r h
    cases n with
    | zero => cases h
    | succ n =>
      simp only [replaceForeignIndirectObjects] at h
      cases hcore : replaceCore n st v true with
      | error e =>
        rw [hcore] at h
        dsimp only at h
        cases h
      | ok p =>
        obtain ⟨st₂, r₂⟩ := p
        rw [hcore] at h
        dsimp only at h
        split at h
        · cases h
        · rename_i hcond
          cases h
          by_cases hstr : (st'.dest.resolve r).objType = qpdf_object_type.ot_stream
          · exact Or.inr hstr
          · cases hr : r.isIndirect with
            | false => exact Or.inl rfl
            | true => exact absurd ⟨trivial, hstr, hr⟩ hcond

/-- **C10 witness.** A top-level rewrite of a direct scalar succeeds and
its result is not indirect. -/
theorem replaceForeign_top_level_invariant_witness :
    (QPDFValue.direct (.integer 5)).isIndirect = false ∨
      ((stDemo.dest.resolve (QPDFValue.direct (.integer 5))).objType = .ot_stream) :=
  replaceForeign_top_level_invariant.2 2 stDemo (.direct (.integer 5)) stDemo
    (.direct (.integer 5)) rfl

/-- **C3.** Copying a foreign `/Pages` dictionary (skipped in Pass 1, so
its identifier is absent from `object_map` after Pass 2) emits the
damage warning and returns a local (direct) null handle; and during
Pass 2 every non-top indirect reference whose identifier is absent from
`object_map` is rewritten to a local null handle. -/
theorem copyForeign_pages_behaviour :
    (∀ (n : Nat) (st : CopyState) (qid : Nat) (og : QPDFObjGen),
      ¬ qid = st.dest.unique_id →
      st.copier.visiting = [] →
      st.copier.to_copy = [] →
      isPagesObjectIn st.src (.indirect qid og) = true →
      alookup st.copier.object_map og = none →
      st.dest.max_warnings = 0 →
      ∃ st', copyForeignObject (n + 1) st (.indirect qid og) = .ok (st', .direct .null)
        ∧ st'.dest.warnings = st.dest.warnings ++
            [st.dest.damagedPDF st.dest.last_object_description st.dest.file.getLastOffset
              "unexpected reference to /Pages object while copying foreign object; replacing with null"]
        ∧ (st.dest.damagedPDF st.dest.last_object_description st.dest.file.getLastOffset
              "unexpected reference to /Pages object while copying foreign object; replacing with null").error_code
            = .e_damaged_pdf)
    ∧ (∀ (n : Nat) (st : CopyState) (v : QPDFValue),
      v.isIndirect = true →
      alookup st.copier.object_map v.getObjGen = none →
      replaceForeignIndirectObjects (n + 2) st v false = .ok (st, .direct .null)) := by
  constructor
  · intro n st qid og hq hv ht hp hmap hmw
    have hp' := hp
    have hdict : ∃ es, st.src.resolve (.indirect qid og) = .dictionary es := by
      unfold isPagesObjectIn at hp
      revert hp
      cases hcase : st.src.resolve (.indirect qid og) <;> intro hp <;>
        first
          | exact ⟨_, rfl⟩
          | simp at hp
    obtain ⟨es, hres⟩ := hdict
    have hreserve : reserveObjects (n + 1) st (.indirect qid og) true = .ok st := by
      unfold reserveObjects
      rw [hres]
      simp [QPDFObject.objType, hp']
    cases hs : st.dest.suppress_warnings <;>
    · simp only [copyForeignObject, QPDFValue.isIndirect, QPDFValue.ownerId,
        QPDFValue.getObjGen, hreserve, hv, hq, ht, copyLoop, QPDF.warn, hmw, hs, hmap]
      try simp only [Bool.true_eq_false, not_false_eq_true, if_true, if_neg hq]
      try norm_num
      try simp only [hmap]
      rfl
  · intro n st v hind hmap
    cases v with
    | direct o => cases hind
    | indirect ow og =>
      simp only [QPDFValue.getObjGen] at hmap
      simp [replaceForeignIndirectObjects, replaceCore, QPDFValue.isIndirect,
        QPDFValue.getObjGen, hmap]

/-- **C3 witness.** Copying the `/Pages` dictionary `1 0` of
`srcPagesDemo` warns and returns a direct null. -/
theorem copyForeign_pages_behaviour_witness :
    ∃ st', copyForeignObject 3 stPagesDemo (.indirect 7 ⟨1, 0⟩) = .ok (st', .direct .null)
      ∧ st'.dest.warnings = stPagesDemo.dest.warnings ++
          [stPagesDemo.dest.damagedPDF stPagesDemo.dest.last_object_description
            stPagesDemo.dest.file.getLastOffset
            "unexpected reference to /Pages object while copying foreign object; replacing with null"]
      ∧ (stPagesDemo.dest.damagedPDF stPagesDemo.dest.last_object_description
            stPagesDemo.dest.file.getLastOffset
            "unexpected reference to /Pages object while copying foreign object; replacing with null").error_code
          = .e_damaged_pdf :=
  copyForeign_pages_behaviour.1 2 stPagesDemo 7 ⟨1, 0⟩ (by decide) rfl rfl rfl rfl rfl

/-- **C4.** `copyStreamData` installs the destination stream's data
source exactly by the claimed priority: (1) share an existing in-memory
buffer of the source stream; (2) else, with `immediate_copy_from` on the
source document, materialize the source's raw data into a buffer on the
source stream and share it; (3) else register the source's indirect
handle in the copied-stream data provider; (4) else register a
`ForeignStreamData` record capturing the source's encryption parameters,
input source, foreign identifier, offset, length and local dictionary.
Stated as: the transcription of the code equals the definition written
from the claim's words, on all inputs. -/
theorem copyStreamData_matches_priority (st : CopyState) (result foreign : QPDFValue) :
    copyStreamData st result foreign = copyStreamDataSpec st result foreign := by
  cases hi : foreign.isIndirect with
  | false => simp [copyStreamData, copyStreamDataSpec, hi]
  | true =>
    cases hres : st.src.resolve foreign
    case stream sdict soff slen sdata =>
      cases sdata <;>
        cases him : st.src.immediate_copy_from <;>
          simp [copyStreamData, copyStreamDataSpec, hi, hres, him,
            StreamData.getBuffer, StreamData.hasProvider]
    all_goals simp [copyStreamData, copyStreamDataSpec, hi, hres]

/-! ### Invariant lemmas for Pass 1 (reservation) -/

theorem reserveInv_refl (st : CopyState) : ReserveInv st st :=
  ⟨rfl, rfl, fun _ _ h => h, fun _ _ h => h⟩

theorem reserveInv_trans {a b c : CopyState} (h1 : ReserveInv a b) (h2 : ReserveInv b c) :
    ReserveInv a c :=
  ⟨h2.1.trans h1.1, h2.2.1.trans h1.2.1,
    fun og v h => h2.2.2.1 og v (h1.2.2.1 og v h),
    fun og o h => h2.2.2.2 og o (h1.2.2.2 og o h)⟩

theorem eraseVisiting_reserveInv (st : CopyState) (og : QPDFObjGen) :
    ReserveInv st (eraseVisiting st og) :=
  ⟨rfl, rfl, fun _ _ h => h, fun _ _ h => h⟩

/-- Any successful indirect-handle step of Pass 1 satisfies `ReserveInv`. -/
theorem reserveStep_inv {st : CopyState} {v : QPDFValue} {top : Bool} {p : CopyState × Bool}
    (h : reserveStep st v top = .ok p) : ReserveInv st p.1 := by
  unfold reserveStep at h
  split at h
  · -- indirect handle
    split at h
    · -- cycle: unchanged state
      cases h
      exact reserveInv_refl st
    · rename_i hmem
      split at h
      · -- already in object_map
        split at h
        · cases h
          exact ⟨rfl, rfl, fun _ _ hh => hh, fun _ _ hh => hh⟩
        · cases h
          exact ⟨rfl, rfl, fun _ _ hh => hh, fun _ _ hh => hh⟩
      · -- fresh reservation
        rename_i hlook
        by_cases hstr : (st.src.resolve v).objType = qpdf_object_type.ot_stream
        · rw [if_pos hstr] at h
          dsimp only [QPDF.newStream, QPDF.newIndirectNull, QPDF.makeIndirect] at h
          split at h <;> cases h <;>
            exact ⟨rfl, rfl,
              fun og w hh => alookup_aset_of_none _ hlook hh,
              fun og o hh => alookup_append_left _ hh⟩
        · rw [if_neg hstr] at h
          dsimp only [QPDF.newStream, QPDF.newIndirectNull, QPDF.makeIndirect] at h
          split at h <;> cases h <;>
            exact ⟨rfl, rfl,
              fun og w hh => alookup_aset_of_none _ hlook hh,
              fun og o hh => alookup_append_left _ hh⟩
  · -- direct handle: unchanged state
    cases h
    exact reserveInv_refl st

/-- Every successful Pass-1 run satisfies `ReserveInv` (simultaneously for
the three mutually recursive functions). -/
theorem reserve_inv_all :
    ∀ n : Nat,
      (∀ st v top st', reserveObjects n st v top = .ok st' → ReserveInv st st')
      ∧ (∀ st vs st', reserveList n st vs = .ok st' → ReserveInv st st')
      ∧ (∀ st ks es st', reserveKeys n st ks es = .ok st' → ReserveInv st st') := by
  intro n
  induction n with
  | zero =>
    refine ⟨fun st v top st' h => ?_, fun st vs st' h => ?_, fun st ks es st' h => ?_⟩ <;>
      cases h
  | succ n ih =>
    obtain ⟨ihO, ihL, ihK⟩ := ih
    refine ⟨fun st v top st' h => ?_, fun st vs st' h => ?_, fun st ks es st' h => ?_⟩
    · -- reserveObjects
      unfold reserveObjects at h
      split at h
      · cases h
      · split at h
        · cases h
          exact reserveInv_refl st
        · cases hstep : reserveStep st v top with
          | error e =>
            rw [hstep] at h
            cases h
          | ok p =>
            obtain ⟨st3, cont⟩ := p
            rw [hstep] at h
            have hinv1 : ReserveInv st st3 := reserveStep_inv hstep
            cases cont with
            | false =>
              dsimp only at h
              cases h
              exact hinv1
            | true =>
              dsimp only at h
              cases hch : (match st3.src.resolve v with
                | QPDFObject.array items => reserveList n st3 items
                | QPDFObject.dictionary es => reserveKeys n st3 (sortedKeys es) es
                | QPDFObject.stream d _ _ _ =>
                    reserveObjects n st3 (.direct (.dictionary d)) false
                | _ => .ok st3) with
              | error e =>
                rw [hch] at h
                cases h
              | ok st4 =>
                rw [hch] at h
                dsimp only at h
                cases h
                have hinv2 : ReserveInv st3 st4 := by
                  revert hch
                  cases hres : st3.src.resolve v <;> intro hch
                  case array items => exact ihL _ _ _ hch
                  case dictionary es => exact ihK _ _ _ _ hch
                  case stream d o l sd => exact ihO _ _ _ _ hch
                  all_goals (cases hch; exact reserveInv_refl st3)
                exact reserveInv_trans (reserveInv_trans hinv1 hinv2) (eraseVisiting_reserveInv st4 _)
    · -- reserveList
      cases vs with
      | nil =>
        unfold reserveList at h
        cases h
        exact reserveInv_refl st
      | cons v vs =>
        unfold reserveList at h
        cases hv : reserveObjects n st v false with
        | error e =>
          rw [hv] at h
          cases h
        | ok st1 =>
          rw [hv] at h
          dsimp only at h
          exact reserveInv_trans (ihO _ _ _ _ hv) (ihL _ _ _ h)
    · -- reserveKeys
      cases ks with
      | nil =>
        unfold reserveKeys at h
        cases h
        exact reserveInv_refl st
      | cons k ks =>
        unfold reserveKeys at h
        cases hv : reserveObjects n st (dictGetKey es k) false with
        | error e =>
          rw [hv] at h
          cases h
        | ok st1 =>
          rw [hv] at h
          dsimp only at h
          exact reserveInv_trans (ihO _ _ _ _ hv) (ihK _ _ _ _ h)

/-! ### Invariant lemmas for Pass 2 (rewrite) -/

theorem srcPres_refl (st : CopyState) : srcStreamPreserved st st :=
  fun _ => Or.inl rfl

theorem srcStreamPreserved_of_src_eq {st st' : CopyState} (h : st'.src = st.src) :
    srcStreamPreserved st st' :=
  fun _ => Or.inl (by rw [h])

theorem srcPres_trans {a b c : CopyState}
    (h12 : srcStreamPreserved a b) (h23 : srcStreamPreserved b c) :
    srcStreamPreserved a c := by
  intro og
  rcases h23 og with h | ⟨hb, hc⟩
  · rcases h12 og with h' | ⟨ha, hb'⟩
    · exact Or.inl (h.trans h')
    · exact Or.inr ⟨ha, h ▸ hb'⟩
  · refine Or.inr ⟨?_, hc⟩
    rcases h12 og with h' | ⟨ha, _⟩
    · obtain ⟨d, o, l, sd, hb⟩ := hb
      exact ⟨d, o, l, sd, h' ▸ hb⟩
    · exact ha

theorem passInv_refl (st : CopyState) : PassInv st st :=
  ⟨rfl, rfl, srcPres_refl st⟩

theorem passInv_trans {a b c : CopyState} (h1 : PassInv a b) (h2 : PassInv b c) :
    PassInv a c :=
  ⟨h2.1.trans h1.1, h2.2.1.trans h1.2.1, srcPres_trans h1.2.2 h2.2.2⟩

theorem setStreamData_ok_uid {q : QPDF} {og : QPDFObjGen} {sd : StreamData} {d : QPDF}
    (h : q.setStreamData og sd = .ok d) : d.unique_id = q.unique_id := by
  unfold QPDF.setStreamData at h
  split at h
  · cases h; rfl
  · cases h

theorem resolve_indirect_stream {q : QPDF} {ow : Nat} {og : QPDFObjGen}
    {d : List (String × QPDFValue)} {o : Int} {l : Nat} {sd : StreamData}
    (h : q.resolve (.indirect ow og) = .stream d o l sd) :
    alookup q.store og = some (.stream d o l sd) := by
  unfold QPDF.resolve at h
  dsimp only at h
  cases halk : alookup q.store og with
  | some x => rw [halk] at h; dsimp only at h; rw [h]
  | none => rw [halk] at h; dsimp only at h; cases h

/-- `copyStreamData` preserves the copier state and only materializes
stream data on the source. -/
theorem copyStreamData_passInv {st : CopyState} {r f : QPDFValue} {st' : CopyState}
    (h : copyStreamData st r f = .ok st') : PassInv st st' := by
  unfold copyStreamData at h
  split at h
  · cases h
  · rename_i hind
    have hindt : f.isIndirect = true := by
      revert hind
      cases f.isIndirect <;> simp
    split at h
    case h_2 => cases h
    case h_1 sdict soff slen sdata heq =>
      obtain ⟨ow, og, hf⟩ : ∃ ow og, f = .indirect ow og := by
        cases f with
        | direct o => cases hindt
        | indirect ow og => exact ⟨ow, og, rfl⟩
      dsimp only at h
      by_cases hc : (st.src.immediate_copy_from = true ∧ sdata.getBuffer = none)
      · rw [if_pos hc] at h
        dsimp only at h
        have hsrcok : srcStreamPreserved st
            { st with
              src := { st.src with
                store := aset st.src.store f.getObjGen
                  (.stream sdict soff slen (.buffer st.next_buf)) },
              next_buf := st.next_buf + 1 } := by
          intro og'
          by_cases he : f.getObjGen = og'
          · refine Or.inr ⟨⟨sdict, soff, slen, sdata, ?_⟩,
              ⟨sdict, soff, slen, .buffer st.next_buf, ?_⟩⟩
            · rw [← he, hf]
              exact resolve_indirect_stream (hf ▸ heq)
            · show alookup (aset st.src.store f.getObjGen _) og' = _
              rw [alookup_aset, if_pos he]
          · show alookup (aset st.src.store f.getObjGen _) og' = _ ∨ _
            rw [alookup_aset, if_neg he]
            exact Or.inl rfl
        split at h
        · -- buffer branch after materialization
          split at h
          · cases h
          · rename_i d hset
            cases h
            exact ⟨rfl, setStreamData_ok_uid hset, hsrcok⟩
        · -- provider / record branches cannot occur: materialized buffer
          split at h
          · split at h
            · cases h
            · rename_i d hset
              cases h
              exact ⟨rfl, setStreamData_ok_uid hset, hsrcok⟩
          · split at h
            · cases h
            · rename_i d hset
              cases h
              exact ⟨rfl, setStreamData_ok_uid hset, hsrcok⟩
      · rw [if_neg hc] at h
        dsimp only at h
        split at h
        · split at h
          · cases h
          · rename_i d hset
            cases h
            exact ⟨rfl, setStreamData_ok_uid hset, srcPres_refl st⟩
        · split at h
          · split at h
            · cases h
            · rename_i d hset
              cases h
              exact ⟨rfl, setStreamData_ok_uid hset, srcPres_refl st⟩
          · split at h
            · cases h
            · rename_i d hset
              cases h
              exact ⟨rfl, setStreamData_ok_uid hset, srcPres_refl st⟩

theorem destDictReplaceKey_passInv {st : CopyState} {og : QPDFObjGen} {k : String}
    {v : QPDFValue} {st' : CopyState}
    (h : destDictReplaceKey st og k v = .ok st') : PassInv st st' := by
  unfold destDictReplaceKey at h
  split at h
  · cases h
    exact ⟨rfl, rfl, srcPres_refl st⟩
  · cases h

theorem replaceReserved_ok_uid {q : QPDF} {a b : QPDFValue} {d : QPDF}
    (h : q.replaceReserved a b = .ok d) : d.unique_id = q.unique_id := by
  unfold QPDF.replaceReserved at h
  split at h
  · cases h
  · cases h; rfl

/-- Every successful Pass-2 run satisfies `PassInv` (simultaneously for
the five mutually recursive functions). -/
theorem replace_inv_all :
    ∀ n : Nat,
      (∀ st v top st' r, replaceForeignIndirectObjects n st v top = .ok (st', r) → PassInv st st')
      ∧ (∀ st v top st' r, replaceCore n st v top = .ok (st', r) → PassInv st st')
      ∧ (∀ st vs st' vs', replaceArrayItems n st vs = .ok (st', vs') → PassInv st st')
      ∧ (∀ st ks es st' es', replaceDictKeys n st ks es = .ok (st', es') → PassInv st st')
      ∧ (∀ st ks es og st', replaceStreamKeys n st ks es og = .ok st' → PassInv st st') := by
  intro n
  induction n with
  | zero =>
    refine ⟨fun st v top st' r h => ?_, fun st v top st' r h => ?_,
      fun st vs st' vs' h => ?_, fun st ks es st' es' h => ?_,
      fun st ks es og st' h => ?_⟩ <;> cases h
  | succ n ih =>
    obtain ⟨ihF, ihC, ihA, ihD, ihS⟩ := ih
    refine ⟨fun st v top st' r h => ?_, fun st v top st' r h => ?_,
      fun st vs st' vs' h => ?_, fun st ks es st' es' h => ?_,
      fun st ks es og st' h => ?_⟩
    · -- replaceForeignIndirectObjects
      unfold replaceForeignIndirectObjects at h
      cases hc : replaceCore n st v top with
      | error e => rw [hc] at h; cases h
      | ok p =>
        obtain ⟨st₂, r₂⟩ := p
        rw [hc] at h
        dsimp only at h
        split at h
        · cases h
        · cases h
          exact ihC _ _ _ _ _ hc
    · -- replaceCore
      unfold replaceCore at h
      split at h
      · -- non-top indirect reference: object_map lookup, state unchanged
        split at h <;> (cases h; exact passInv_refl st)
      · split at h
        case h_1 items heq =>
          cases ha : replaceArrayItems n st items with
          | error e => rw [ha] at h; cases h
          | ok p =>
            obtain ⟨st₂, items'⟩ := p
            rw [ha] at h
            dsimp only at h
            cases h
            exact ihA _ _ _ _ ha
        case h_2 es heq =>
          cases hd : replaceDictKeys n st (sortedKeys es) es with
          | error e => rw [hd] at h; cases h
          | ok p =>
            obtain ⟨st₂, es'⟩ := p
            rw [hd] at h
            dsimp only at h
            cases h
            exact ihD _ _ _ _ _ hd
        case h_3 sdict soff slen sdata heq =>
          split at h
          · cases h
          · rename_i result hlook
            split at h
            case h_2 => cases h
            case h_1 =>
              cases hs : replaceStreamKeys n st (sortedKeys sdict) sdict result.getObjGen with
              | error e => rw [hs] at h; cases h
              | ok st₂ =>
                rw [hs] at h
                dsimp only at h
                cases hcs : copyStreamData st₂ result v with
                | error e => rw [hcs] at h; cases h
                | ok st₃ =>
                  rw [hcs] at h
                  dsimp only at h
                  cases h
                  exact passInv_trans (ihS _ _ _ _ _ hs) (copyStreamData_passInv hcs)
        case h_4 =>
          cases h
          exact passInv_refl st
    · -- replaceArrayItems
      cases vs with
      | nil =>
        unfold replaceArrayItems at h
        cases h
        exact passInv_refl st
      | cons v vs =>
        unfold replaceArrayItems at h
        cases hv : replaceForeignIndirectObjects n st v false with
        | error e => rw [hv] at h; cases h
        | ok p =>
          obtain ⟨st₁, v'⟩ := p
          rw [hv] at h
          dsimp only at h
          cases hr : replaceArrayItems n st₁ vs with
          | error e => rw [hr] at h; cases h
          | ok p' =>
            obtain ⟨st₂, vs₂⟩ := p'
            rw [hr] at h
            dsimp only at h
            cases h
            exact passInv_trans (ihF _ _ _ _ _ hv) (ihA _ _ _ _ hr)
    · -- replaceDictKeys
      cases ks with
      | nil =>
        unfold replaceDictKeys at h
        cases h
        exact passInv_refl st
      | cons k ks =>
        unfold replaceDictKeys at h
        cases hv : replaceForeignIndirectObjects n st (dictGetKey es k) false with
        | error e => rw [hv] at h; cases h
        | ok p =>
          obtain ⟨st₁, v'⟩ := p
          rw [hv] at h
          dsimp only at h
          cases hr : replaceDictKeys n st₁ ks es with
          | error e => rw [hr] at h; cases h
          | ok p' =>
            obtain ⟨st₂, es₂⟩ := p'
            rw [hr] at h
            dsimp only at h
            cases h
            exact passInv_trans (ihF _ _ _ _ _ hv) (ihD _ _ _ _ _ hr)
    · -- replaceStreamKeys
      cases ks with
      | nil =>
        unfold replaceStreamKeys at h
        cases h
        exact passInv_refl st
      | cons k ks =>
        unfold replaceStreamKeys at h
        cases hv : replaceForeignIndirectObjects n st (dictGetKey es k) false with
        | error e => rw [hv] at h; cases h
        | ok p =>
          obtain ⟨st₁, v'⟩ := p
          rw [hv] at h
          dsimp only at h
          cases hk : destDictReplaceKey st₁ og k v' with
          | error e => rw [hk] at h; cases h
          | ok st₂ =>
            rw [hk] at h
            dsimp only at h
            exact passInv_trans (passInv_trans (ihF _ _ _ _ _ hv) (destDictReplaceKey_passInv hk))
              (ihS _ _ _ _ _ h)

/-- The Pass-2 driver loop satisfies `PassInv`. -/
theorem copyLoop_passInv :
    ∀ (fuel : Nat) (l : List QPDFValue) (st st' : CopyState),
      copyLoop fuel st l = .ok st' → PassInv st st' := by
  intro fuel l
  induction l with
  | nil =>
    intro st st' h
    unfold copyLoop at h
    cases h
    exact passInv_refl st
  | cons tc rest ih =>
    intro st st' h
    unfold copyLoop at h
    cases hv : replaceForeignIndirectObjects fuel st tc true with
    | error e => rw [hv] at h; cases h
    | ok p =>
      obtain ⟨st₁, copy⟩ := p
      rw [hv] at h
      dsimp only at h
      have h1 : PassInv st st₁ := (replace_inv_all fuel).1 _ _ _ _ _ hv
      split at h
      · exact passInv_trans h1 (ih _ _ h)
      · split at h
        · cases h
        · rename_i lh hlook
          cases hrr : st₁.dest.replaceReserved lh copy with
          | error e => rw [hrr] at h; cases h
          | ok d =>
            rw [hrr] at h
            dsimp only at h
            have h2 : PassInv st₁ { st₁ with dest := d } :=
              ⟨rfl, replaceReserved_ok_uid hrr, srcPres_refl st₁⟩
            exact passInv_trans (passInv_trans h1 h2) (ih _ _ h)

/-! ### The reservation step on a not-yet-mapped indirect object (C1) -/

/-- On an indirect foreign handle that is not being visited and not yet in
`object_map`, the Pass-1 indirect step allocates the next destination id
and binds it in `object_map`: the fresh slot holds a new empty stream if
the foreign value is a stream, and an indirect null otherwise. -/
theorem reserveStep_fresh {st : CopyState} {qid : Nat} {og : QPDFObjGen} {top : Bool}
    {p : CopyState × Bool}
    (h : reserveStep st (.indirect qid og) top = .ok p)
    (hvis : ¬ og ∈ st.copier.visiting)
    (hmap : alookup st.copier.object_map og = none)
    (hfresh : alookup st.dest.store ⟨st.dest.next_obj, 0⟩ = none) :
    alookup p.1.copier.object_map og =
      some (.indirect st.dest.unique_id ⟨st.dest.next_obj, 0⟩)
    ∧ alookup p.1.dest.store ⟨st.dest.next_obj, 0⟩ =
        some (if (st.src.resolve (.indirect qid og)).objType = .ot_stream
          then QPDFObject.stream [] 0 0 .fromInput else QPDFObject.null) := by
  unfold reserveStep at h
  simp only [QPDFValue.isIndirect, QPDFValue.getObjGen, if_true] at h
  rw [if_neg hvis, hmap] at h
  dsimp only at h
  by_cases hstr : (st.src.resolve (.indirect qid og)).objType = qpdf_object_type.ot_stream
  · rw [if_pos hstr] at h
    split at h <;>
      (cases h
       refine ⟨?_, ?_⟩
       · show alookup (aset st.copier.object_map og _) og = _
         rw [alookup_aset, if_pos rfl]
         rfl
       · show alookup (st.dest.store ++ [(⟨st.dest.next_obj, 0⟩, _)]) _ = _
         rw [alookup_append_right _ hfresh, if_pos hstr]
         show alookup [(_, QPDFObject.stream [] 0 0 .fromInput)] _ = _
         rw [show alookup [((⟨st.dest.next_obj, 0⟩ : QPDFObjGen),
              QPDFObject.stream [] 0 0 .fromInput)] ⟨st.dest.next_obj, 0⟩ =
            some (QPDFObject.stream [] 0 0 .fromInput) from by
              simp [alookup]])
  · rw [if_neg hstr] at h
    split at h <;>
      (cases h
       refine ⟨?_, ?_⟩
       · show alookup (aset st.copier.object_map og _) og = _
         rw [alookup_aset, if_pos rfl]
         rfl
       · show alookup (st.dest.store ++ [(⟨st.dest.next_obj, 0⟩, _)]) _ = _
         rw [alookup_append_right _ hfresh, if_neg hstr]
         show alookup [(_, QPDFObject.null)] _ = _
         rw [show alookup [((⟨st.dest.next_obj, 0⟩ : QPDFObjGen),
              QPDFObject.null)] ⟨st.dest.next_obj, 0⟩ = some QPDFObject.null from by
              simp [alookup]])

/-- **C1** (corrected). During Pass 1, an indirect foreign object that is
not yet in `object_map` (and not being visited, not `/Pages`, not
`Reserved`) gets a freshly allocated local slot — a fresh stream
(`newStream`) if the foreign value is a stream, and otherwise an
*indirect null* (`newIndirectNull`, not `newReserved`) — and the
(foreign identifier, local handle) pair is entered into `object_map`. -/
theorem reserveObjects_reserves_slot
    (n : Nat) (st : CopyState) (qid : Nat) (og : QPDFObjGen) (top : Bool) (st' : CopyState)
    (hvis : ¬ og ∈ st.copier.visiting)
    (hmap : alookup st.copier.object_map og = none)
    (hnotres : ¬ (st.src.resolve (.indirect qid og)).objType = .ot_reserved)
    (hnotpages : isPagesObjectIn st.src (.indirect qid og) = false)
    (hfresh : alookup st.dest.store ⟨st.dest.next_obj, 0⟩ = none)
    (h : reserveObjects (n + 1) st (.indirect qid og) top = .ok st') :
    alookup st'.copier.object_map og =
      some (.indirect st.dest.unique_id ⟨st.dest.next_obj, 0⟩)
    ∧ alookup st'.dest.store ⟨st.dest.next_obj, 0⟩ =
        some (if (st.src.resolve (.indirect qid og)).objType = .ot_stream
          then QPDFObject.stream [] 0 0 .fromInput else QPDFObject.null) := by
  unfold reserveObjects at h
  rw [if_neg hnotres, if_neg (by rw [hnotpages]; exact Bool.false_ne_true)] at h
  cases hstep : reserveStep st (.indirect qid og) top with
  | error e => rw [hstep] at h; cases h
  | ok p =>
    obtain ⟨st3, cont⟩ := p
    rw [hstep] at h
    have hfacts := reserveStep_fresh hstep hvis hmap hfresh
    cases cont with
    | false =>
      dsimp only at h
      cases h
      exact hfacts
    | true =>
      dsimp only at h
      cases hch : (match st3.src.resolve (.indirect qid og) with
        | QPDFObject.array items => reserveList n st3 items
        | QPDFObject.dictionary es => reserveKeys n st3 (sortedKeys es) es
        | QPDFObject.stream d _ _ _ =>
            reserveObjects n st3 (.direct (.dictionary d)) false
        | _ => .ok st3) with
      | error e => rw [hch] at h; cases h
      | ok st4 =>
        rw [hch] at h
        dsimp only at h
        cases h
        have hinv2 : ReserveInv st3 st4 := by
          revert hch
          cases hres : st3.src.resolve (.indirect qid og) <;> intro hch
          case array items => exact (reserve_inv_all n).2.1 _ _ _ hch
          case dictionary es => exact (reserve_inv_all n).2.2 _ _ _ _ hch
          case stream d o l sd => exact (reserve_inv_all n).1 _ _ _ _ hch
          all_goals (cases hch; exact reserveInv_refl st3)
        exact ⟨hinv2.2.2.1 _ _ hfacts.1, hinv2.2.2.2 _ _ hfacts.2⟩

/-- **C1 witness.** Reserving the foreign dictionary `1 0` of `srcDemo`
binds it in `object_map` to the fresh local handle `1 0` whose slot is an
indirect null (the foreign value is not a stream). -/
theorem reserveObjects_reserves_slot_witness :
    ∃ st', reserveObjects 3 stDemo vDemo true = .ok st'
      ∧ alookup st'.copier.object_map ⟨1, 0⟩ =
          some (.indirect stDemo.dest.unique_id ⟨stDemo.dest.next_obj, 0⟩)
      ∧ alookup st'.dest.store ⟨stDemo.dest.next_obj, 0⟩ =
          some (if (stDemo.src.resolve vDemo).objType = .ot_stream
            then QPDFObject.stream [] 0 0 .fromInput else QPDFObject.null) := by
  refine ⟨_, rfl, ?_⟩
  exact reserveObjects_reserves_slot 2 stDemo 7 ⟨1, 0⟩ true _
    (by simp [stDemo]) rfl (by decide) (by decide) rfl rfl

/-- **C1 counterexample.** Running Pass 1 on the non-stream foreign
object `1 0` of `srcDemo` reserves a local slot holding `Null` — the slot
a `newIndirectNull` produces — not the `Reserved` value the claim's
`new_reserved` would produce. -/
theorem reserveObjects_null_not_reserved_counterexample :
    (match reserveObjects 3 stDemo vDemo true with
      | .ok st' => alookup st'.dest.store ⟨1, 0⟩
      | _ => none) = some QPDFObject.null
    ∧ some QPDFObject.null ≠ some QPDFObject.reserved := by
  refine ⟨rfl, ?_⟩
  intro hcontra
  exact QPDFObject.noConfusion (Option.some.inj hcontra)

/-! ### Lemmas for idempotence of the foreign copy (C2) -/

theorem pages_is_dict {q : QPDF} {v : QPDFValue} (hp : isPagesObjectIn q v = true) :
    ∃ es, q.resolve v = .dictionary es := by
  unfold isPagesObjectIn at hp
  revert hp
  cases hcase : q.resolve v <;> intro hp
  case dictionary es => exact ⟨es, rfl⟩
  all_goals simp at hp

/-- Pass 1 on a `/Pages` dictionary is the identity (the skip branch). -/
theorem reserve_pages_id (n : Nat) (st : CopyState) (v : QPDFValue) (top : Bool)
    (hp : isPagesObjectIn st.src v = true) :
    reserveObjects (n + 1) st v top = .ok st := by
  obtain ⟨es, hres⟩ := pages_is_dict hp
  unfold reserveObjects
  rw [hres]
  simp [QPDFObject.objType, hp]

theorem alookup_aset_self {α : Type} [DecidableEq α] {β : Type}
    (m : List (α × β)) (a : α) (b : β) :
    alookup (aset m a b) a = some b := by
  rw [alookup_aset, if_pos rfl]

/-- A successful indirect Pass-1 step leaves the handle's identifier bound
in `object_map`. -/
theorem reserveStep_some {st : CopyState} {v : QPDFValue} {top : Bool} {p : CopyState × Bool}
    (h : reserveStep st v top = .ok p)
    (hind : v.isIndirect = true)
    (hvis : ¬ v.getObjGen ∈ st.copier.visiting) :
    ∃ w, alookup p.1.copier.object_map v.getObjGen = some w := by
  unfold reserveStep at h
  rw [if_pos hind, if_neg hvis] at h
  cases hlook : alookup st.copier.object_map v.getObjGen with
  | some lh =>
    rw [hlook] at h
    dsimp only at h
    split at h <;> (cases h; exact ⟨lh, hlook⟩)
  | none =>
    rw [hlook] at h
    dsimp only at h
    split at h <;>
      (split at h <;>
        (cases h
         exact ⟨_, alookup_aset_self _ _ _⟩))

/-- A successful top-level Pass-1 run on an indirect non-`/Pages` handle
leaves the handle's identifier bound in `object_map`. -/
theorem reserve_top_some {n : Nat} {st : CopyState} {v : QPDFValue} {st' : CopyState}
    (h : reserveObjects (n + 1) st v true = .ok st')
    (hind : v.isIndirect = true)
    (hvis : st.copier.visiting = [])
    (hnp : isPagesObjectIn st.src v = false) :
    ∃ w, alookup st'.copier.object_map v.getObjGen = some w := by
  unfold reserveObjects at h
  split at h
  · cases h
  · split at h
    · rename_i hpg
      rw [hnp] at hpg
      cases hpg
    · cases hstep : reserveStep st v true with
      | error e => rw [hstep] at h; cases h
      | ok p =>
        obtain ⟨st3, cont⟩ := p
        rw [hstep] at h
        obtain ⟨w, hw⟩ := reserveStep_some hstep hind (by rw [hvis]; simp)
        cases cont with
        | false =>
          dsimp only at h
          cases h
          exact ⟨w, hw⟩
        | true =>
          dsimp only at h
          cases hch : (match st3.src.resolve v with
            | QPDFObject.array items => reserveList n st3 items
            | QPDFObject.dictionary es => reserveKeys n st3 (sortedKeys es) es
            | QPDFObject.stream d _ _ _ =>
                reserveObjects n st3 (.direct (.dictionary d)) false
            | _ => .ok st3) with
          | error e => rw [hch] at h; cases h
          | ok st4 =>
            rw [hch] at h
            dsimp only at h
            cases h
            have hinv2 : ReserveInv st3 st4 := by
              revert hch
              cases hres : st3.src.resolve v <;> intro hch
              case array items => exact (reserve_inv_all n).2.1 _ _ _ hch
              case dictionary es => exact (reserve_inv_all n).2.2 _ _ _ _ hch
              case stream d o l sd => exact (reserve_inv_all n).1 _ _ _ _ hch
              all_goals (cases hch; exact reserveInv_refl st3)
            exact ⟨w, hinv2.2.2.1 _ _ hw⟩

/-- Resolution against the source is preserved by stream-only mutation:
either the handle resolves to the same object, or it resolved to a stream
before and after. -/
theorem resolve_preserved {st st' : CopyState} (h : srcStreamPreserved st st') (w : QPDFValue) :
    st'.src.resolve w = st.src.resolve w
    ∨ ((∃ d o l sd, st.src.resolve w = QPDFObject.stream d o l sd)
      ∧ (∃ d o l sd, st'.src.resolve w = QPDFObject.stream d o l sd)) := by
  cases w with
  | direct o => exact Or.inl rfl
  | indirect ow og =>
    rcases h og with he | ⟨⟨d, o, l, sd, h1⟩, ⟨d', o', l', sd', h2⟩⟩
    · refine Or.inl ?_
      simp only [QPDF.resolve]
      rw [he]
    · refine Or.inr ⟨⟨d, o, l, sd, ?_⟩, ⟨d', o', l', sd', ?_⟩⟩
      · simp only [QPDF.resolve]
        rw [h1]
      · simp only [QPDF.resolve]
        rw [h2]

/-- `isPagesObject` is invariant under stream-only mutation of the source
store (a stream is neither a dictionary nor a name). -/
theorem isPages_preserved {st st' : CopyState} (h : srcStreamPreserved st st') (v : QPDFValue) :
    isPagesObjectIn st'.src v = isPagesObjectIn st.src v := by
  rcases resolve_preserved h v with he | ⟨⟨d, o, l, sd, h1⟩, ⟨d', o', l', sd', h2⟩⟩
  · unfold isPagesObjectIn
    rw [he]
    cases hd : st.src.resolve v
    case dictionary es =>
      dsimp only
      rcases resolve_preserved h (dictGetKey es "/Type") with he2 |
        ⟨⟨a, b, c, dd, g1⟩, ⟨a', b', c', dd', g2⟩⟩
      · rw [he2]
      · rw [g1, g2]
    all_goals rfl
  · unfold isPagesObjectIn
    rw [h1, h2]

/-- Inversion of a successful `copyForeignObject`: the preconditions held,
Pass 1 and Pass 2 succeeded, the returned state keeps Pass 2's
`object_map` with an emptied `to_copy`, and the result is either the
mapped local handle or (identifier unmapped) a direct null after the
damage warning. -/
theorem copyForeignObject_ok_elim {fuel : Nat} {st : CopyState} {v : QPDFValue}
    {st' : CopyState} {r : QPDFValue}
    (h : copyForeignObject fuel st v = .ok (st', r)) :
    v.isIndirect = true
    ∧ st.copier.visiting = []
    ∧ ∃ str stl,
        reserveObjects fuel st v true = .ok str
        ∧ copyLoop fuel str str.copier.to_copy = .ok stl
        ∧ st'.copier.object_map = stl.copier.object_map
        ∧ st'.copier.to_copy = []
        ∧ st'.src = stl.src
        ∧ ((alookup stl.copier.object_map v.getObjGen = none ∧ r = .direct .null)
          ∨ alookup stl.copier.object_map v.getObjGen = some r) := by
  unfold copyForeignObject at h
  split at h
  · cases h
  · rename_i hnind
    split at h
    · cases h
    · split at h
      · cases h
      · rename_i hvisne
        refine ⟨not_not.mp hnind, not_not.mp hvisne, ?_⟩
        cases hres : reserveObjects fuel st v true with
        | error e => rw [hres] at h; cases h
        | ok str =>
          rw [hres] at h
          dsimp only at h
          split at h
          · cases h
          · cases hloop : copyLoop fuel str str.copier.to_copy with
            | error e => rw [hloop] at h; cases h
            | ok stl =>
              rw [hloop] at h
              dsimp only at h
              cases hlook : alookup stl.copier.object_map v.getObjGen with
              | none =>
                rw [hlook] at h
                dsimp only at h
                split at h
                · cases h
                · rename_i d hwarn
                  cases h
                  exact ⟨str, stl, rfl, hloop, rfl, rfl, rfl, Or.inl ⟨hlook, rfl⟩⟩
              | some w =>
                rw [hlook] at h
                dsimp only at h
                cases h
                exact ⟨str, stl, rfl, hloop, rfl, rfl, rfl, Or.inr hlook⟩

/-- **C2.** `copyForeignObject` is idempotent: two successful calls on the
same foreign handle against the same destination return the same local
handle, because the per-source-document `ObjCopier` state (`object_map`)
persists across calls — the second call finds the identifier already
mapped (or, for a `/Pages` handle, skips it again) and returns the same
result. -/
theorem copyForeignObject_idempotent
    (f1 f2 : Nat) (st : CopyState) (v : QPDFValue)
    (st1 st2 : CopyState) (r1 r2 : QPDFValue)
    (h1 : copyForeignObject f1 st v = .ok (st1, r1))
    (h2 : copyForeignObject f2 st1 v = .ok (st2, r2)) :
    r1 = r2 := by
  obtain ⟨hind, hvis, str, stl, hres, hloop, hmapeq, htc, hsrc1, hbr⟩ :=
    copyForeignObject_ok_elim h1
  obtain ⟨-, -, str2, stl2, hres2, hloop2, hmapeq2, htc2, hsrc2, hbr2⟩ :=
    copyForeignObject_ok_elim h2
  cases hbr with
  | inr hsome =>
    have hm1 : alookup st1.copier.object_map v.getObjGen = some r1 := by
      rw [hmapeq]; exact hsome
    have hri : ReserveInv st1 str2 := (reserve_inv_all f2).1 _ _ _ _ hres2
    have hm2 : alookup str2.copier.object_map v.getObjGen = some r1 :=
      hri.2.2.1 _ _ hm1
    have hpl : PassInv str2 stl2 := copyLoop_passInv f2 _ _ _ hloop2
    have hm3 : alookup stl2.copier.object_map v.getObjGen = some r1 := by
      rw [hpl.1]; exact hm2
    cases hbr2 with
    | inl hn =>
      rw [hn.1] at hm3
      cases hm3
    | inr hsome2 =>
      rw [hsome2] at hm3
      exact (Option.some.inj hm3).symm
  | inl hn1 =>
    obtain ⟨hnone, hr1⟩ := hn1
    have hm1 : alookup st1.copier.object_map v.getObjGen = none := by
      rw [hmapeq]; exact hnone
    cases f1 with
    | zero => cases hres
    | succ m =>
      by_cases hp : isPagesObjectIn st.src v = true
      · -- the handle is a /Pages dictionary; both calls return direct null
        have hsp1 : srcStreamPreserved st str :=
          srcStreamPreserved_of_src_eq ((reserve_inv_all (m + 1)).1 _ _ _ _ hres).1
        have hsp2 : srcStreamPreserved str stl := (copyLoop_passInv _ _ _ _ hloop).2.2
        have hsp3 : srcStreamPreserved stl st1 := srcStreamPreserved_of_src_eq hsrc1
        have hsp : srcStreamPreserved st st1 := srcPres_trans (srcPres_trans hsp1 hsp2) hsp3
        have hp1 : isPagesObjectIn st1.src v = true := by
          rw [isPages_preserved hsp v]
          exact hp
        cases f2 with
        | zero => cases hres2
        | succ m2 =>
          rw [reserve_pages_id m2 st1 v true hp1] at hres2
          cases hres2
          rw [htc] at hloop2
          unfold copyLoop at hloop2
          cases hloop2
          cases hbr2 with
          | inl hn2 => exact hr1.trans hn2.2.symm
          | inr hsome2 =>
            rw [hm1] at hsome2
            cases hsome2
      · -- not /Pages: call 1 must have mapped the identifier — contradiction
        have hnp : isPagesObjectIn st.src v = false := by
          revert hp
          cases isPagesObjectIn st.src v <;> simp
        obtain ⟨w, hw⟩ := reserve_top_some hres hind hvis hnp
        have hpl1 : PassInv str stl := copyLoop_passInv (m + 1) _ _ _ hloop
        have hcontra : alookup stl.copier.object_map v.getObjGen = some w := by
          rw [hpl1.1]
          exact hw
        rw [hnone] at hcontra
        cases hcontra

/-- **C2 witness.** Copying the foreign handle `1 0 R` of `srcDemo` into
`destDemo` twice yields the same local handle. -/
theorem copyForeignObject_idempotent_witness :
    ∃ st1 r1 st2 r2,
      copyForeignObject 5 stDemo vDemo = .ok (st1, r1)
      ∧ copyForeignObject 5 st1 vDemo = .ok (st2, r2)
      ∧ r1 = r2 := by
  exact ⟨_, _, _, _, rfl, rfl,
    copyForeignObject_idempotent 5 5 stDemo vDemo _ _ _ _ rfl rfl⟩
